import Mathlib

/-!
Shallow embedding of the water-sensor server (src/server.js).

Numeric values flowing through the server are JavaScript numbers produced by
parseFloat; we embed them as an inductive JSNum with NaN, the two infinities,
and finite values carried as rationals.  The haversine distance is
floating-point trigonometry in the source; the nearest-pin scan is therefore
parametrised by the distance function (over any linear order), and the real
formula itself is embedded separately over the reals.
-/

namespace WaterSensor

/-- A JavaScript number as produced by parseFloat: NaN, an infinity, or a
finite value (embedded as a rational). -/
inductive JSNum where
  | nan : JSNum
  | posInf : JSNum
  | negInf : JSNum
  | fin : ℚ → JSNum
deriving DecidableEq

/-- isNaN check used by the validation guard in the /update handler. -/
def JSNum.isNaN : JSNum → Bool
  | .nan => true
  | _ => false

/-- A JavaScript number is finite when it is neither NaN nor an infinity. -/
def JSNum.isFinite : JSNum → Bool
  | .fin _ => true
  | _ => false

/-- JavaScript strict less-than on numbers: any comparison with NaN is false,
infinities compare as expected. -/
def JSNum.jsLt : JSNum → JSNum → Bool
  | .nan, _ => false
  | _, .nan => false
  | .posInf, _ => false
  | .negInf, .negInf => false
  | .negInf, _ => true
  | .fin _, .posInf => true
  | .fin _, .negInf => false
  | .fin a, .fin b => decide (a < b)

/-- JavaScript strict greater-than, defined by flipping jsLt. -/
def JSNum.jsGt (a b : JSNum) : Bool := JSNum.jsLt b a

/-- Classification status of a reading. -/
inductive Status where
  | SAFE : Status
  | UNSAFE : Status
deriving DecidableEq

/-- The SAFE/UNSAFE decision of the /update handler:
UNSAFE when pH < 6.5 or pH > 8.5 or tds > 500 or temp > 35 or turb > 10
(mkRat 13 2 and mkRat 17 2 are the literals 6.5 and 8.5, spelled so that they
evaluate in the kernel). -/
def classifyStatus (ph tds temp turb : JSNum) : Status :=
  if ph.jsLt (.fin (mkRat 13 2)) || ph.jsGt (.fin (mkRat 17 2)) || tds.jsGt (.fin 500) ||
      temp.jsGt (.fin 35) || turb.jsGt (.fin 10) then
    Status.UNSAFE
  else
    Status.SAFE

/-- The entry object built by the /update handler; lat and lng are null when
the corresponding query parameter did not parse to a number. -/
structure Entry where
  ts : ℤ
  time : String
  pH : JSNum
  tds : JSNum
  temp : JSNum
  turb : JSNum
  status : Status
  lat : Option JSNum
  lng : Option JSNum
deriving DecidableEq

/-- history.push(entry) followed by history.shift() when the length exceeds
50. -/
def appendHistory (h : List Entry) (e : Entry) : List Entry :=
  let h1 := h ++ [e]
  if 50 < h1.length then h1.tail else h1

/-- The history produced by ingesting a list of entries into an empty cache. -/
def runHistory (es : List Entry) : List Entry :=
  es.foldl appendHistory []

/-- The /snapshot handler: empty result when history is empty, otherwise the
entry at index length - 1. -/
def snapshot (h : List Entry) : Option Entry :=
  if h.length = 0 then none else h[h.length - 1]?

/-- A connected WebSocket client: an identifier and whether its readyState is
OPEN. -/
structure Client where
  cid : ℕ
  isOpen : Bool
deriving DecidableEq

/-- Messages sent over the WebSocket channel. -/
inductive Msg where
  | history : List Entry → Msg
  | reading : Entry → Msg
  | reset : Msg
deriving DecidableEq

/-- wss.clients.forEach: send the message to every client whose readyState is
OPEN, silently skipping the others. -/
def broadcast (clients : List Client) (m : Msg) : List (ℕ × Msg) :=
  clients.filterMap (fun c => if c.isOpen then some (c.cid, m) else none)

/-- The wss connection handler: the newly connected client is immediately sent
the full history dump. -/
def onConnection (h : List Entry) : Msg := Msg.history h

/-- Alert-throttle state: the lastAlertTime module variable (initially 0). -/
structure AlertState where
  lastAlertTime : ℤ
deriving DecidableEq

/-- ALERT_COOLDOWN = 2 * 60 * 1000 milliseconds. -/
def ALERT_COOLDOWN : ℤ := 2 * 60 * 1000

/-- The NTFY alert block: when the status is UNSAFE and the cooldown has
elapsed, an alert send is attempted; lastAlertTime is assigned only when the
send did not throw (the assignment sits inside the try, after the await).
Returns the new state and whether an attempt was made. -/
def alertStep (st : AlertState) (status : Status) (now : ℤ) (sendOk : Bool) :
    AlertState × Bool :=
  if status = Status.UNSAFE then
    if ALERT_COOLDOWN < now - st.lastAlertTime then
      (if sendOk then { lastAlertTime := now } else st, true)
    else (st, false)
  else (st, false)

/-- JavaScript truthiness of a pin coordinate field: undefined and null map to
none; 0 and NaN are falsy numbers. -/
def jsTruthy : Option JSNum → Bool
  | none => false
  | some JSNum.nan => false
  | some (JSNum.fin q) => decide (q ≠ 0)
  | some _ => true

/-- The distance the scan computes for a pin (its coordinates are known to be
truthy when this is used). -/
def pinDist {α : Type} (dist : JSNum → JSNum → JSNum → JSNum → α)
    (elat elng : JSNum) (p : String × Entry) : α :=
  dist elat elng (p.2.lat.getD JSNum.nan) (p.2.lng.getD JSNum.nan)

/-- One iteration of the nearest-pin loop: skip the pin when either coordinate
is falsy, otherwise keep it when its distance is strictly below the best so
far (a missing accumulator plays the role of the initial Infinity). -/
def scanStep {α : Type} [LinearOrder α] (dist : JSNum → JSNum → JSNum → JSNum → α)
    (elat elng : JSNum) (acc : Option (String × α)) (pin : String × Entry) :
    Option (String × α) :=
  if jsTruthy pin.2.lat && jsTruthy pin.2.lng then
    match acc with
    | none => some (pin.1, pinDist dist elat elng pin)
    | some best =>
        if pinDist dist elat elng pin < best.2 then
          some (pin.1, pinDist dist elat elng pin)
        else some best
  else acc

/-- The nearest-pin scan over the pins object in iteration (insertion)
order. -/
def nearestPin {α : Type} [LinearOrder α] (dist : JSNum → JSNum → JSNum → JSNum → α)
    (elat elng : JSNum) (pins : List (String × Entry)) : Option (String × α) :=
  pins.foldl (scanStep dist elat elng) none

/-- The pins that the scan does not skip. -/
def scannedPins (pins : List (String × Entry)) : List (String × Entry) :=
  pins.filter (fun p => jsTruthy p.2.lat && jsTruthy p.2.lng)

/-- Firebase patch of one pin with the full entry: the pin only ever holds
entry fields, so the patch replaces its contents. -/
def patchPin (pins : List (String × Entry)) (pid : String) (e : Entry) :
    List (String × Entry) :=
  pins.map (fun p => if p.1 = pid then (p.1, e) else p)

/-- The downstream pin operation chosen by the multi-pin block. -/
inductive PinOp where
  | patch : String → Entry → PinOp
  | post : Entry → PinOp
deriving DecidableEq

/-- The multi-pin block: when the entry is geolocated, scan for the nearest
pin; when one was found (with a truthy id) at distance at most 25 m, patch it
in place, otherwise post a new pin holding the entry. -/
def pinStep {α : Type} [LinearOrderedField α]
    (dist : JSNum → JSNum → JSNum → JSNum → α) (freshId : String)
    (entry : Entry) (pins : List (String × Entry)) :
    List (String × Entry) × Option PinOp :=
  match entry.lat, entry.lng with
  | some elat, some elng =>
    match nearestPin dist elat elng pins with
    | some best =>
        if best.1 ≠ "" ∧ best.2 ≤ 25 then
          (patchPin pins best.1 entry, some (PinOp.patch best.1 entry))
        else
          (pins ++ [(freshId, entry)], some (PinOp.post entry))
    | none => (pins ++ [(freshId, entry)], some (PinOp.post entry))
  | _, _ => (pins, none)

/-- Downstream calls the handlers issue (device id made explicit so that scope
independence of the local state is a real statement). -/
inductive DownstreamOp where
  | patchLatest : String → Entry → DownstreamOp
  | postHistory : String → Entry → DownstreamOp
  | pinPatch : String → String → Entry → DownstreamOp
  | pinPost : String → Entry → DownstreamOp
  | ntfy : Entry → DownstreamOp
  | fbDelete : String → DownstreamOp
deriving DecidableEq

/-- A /update request after parseFloat: each query parameter is either absent
or carries the JavaScript number parseFloat produced for it. -/
structure UpdateRequest where
  id : Option String
  pH : Option JSNum
  tds : Option JSNum
  temp : Option JSNum
  turb : Option JSNum
  lat : Option JSNum
  lng : Option JSNum
deriving DecidableEq

/-- parseFloat applied to a possibly-absent query parameter: parseFloat of
undefined is NaN. -/
def parseParam : Option JSNum → JSNum
  | none => JSNum.nan
  | some v => v

/-- The process-global mutable server state: the history array and the alert
timestamp. -/
structure ServerState where
  history : List Entry
  lastAlertTime : ℤ
deriving DecidableEq

/-- Outcome of the /update handler as seen by the caller. -/
inductive UpdateResult where
  | invalid : UpdateResult
  | ok : Entry → UpdateResult
deriving DecidableEq

/-- Everything the /update handler produces: new local state, the (per-device)
pins after the multi-pin block, the WebSocket messages sent, the downstream
calls issued, and the HTTP-level result. -/
structure UpdateOutcome where
  state : ServerState
  pins : List (String × Entry)
  sent : List (ℕ × Msg)
  ops : List DownstreamOp
  result : UpdateResult
deriving DecidableEq

/-- The /update handler.  fbOk models whether the Firebase block succeeded
(failure is modelled at the pins fetch: the latest/history writes were already
attempted, the pin logic does not run); sendOk models whether the NTFY post
succeeded; alertNow is the second Date.now() call in the alert block. -/
def updateStep {α : Type} [LinearOrderedField α]
    (dist : JSNum → JSNum → JSNum → JSNum → α) (st : ServerState)
    (clients : List Client) (pins : List (String × Entry)) (req : UpdateRequest)
    (now : ℤ) (timeStr : String) (freshPinId : String) (fbOk : Bool)
    (alertNow : ℤ) (sendOk : Bool) : UpdateOutcome :=
  let deviceId := req.id.getD "device1"
  let phVal := parseParam req.pH
  let tdsVal := parseParam req.tds
  let tempVal := parseParam req.temp
  let turbVal := parseParam req.turb
  let latVal := parseParam req.lat
  let lngVal := parseParam req.lng
  if phVal.isNaN || tdsVal.isNaN || tempVal.isNaN || turbVal.isNaN then
    { state := st, pins := pins, sent := [], ops := [], result := UpdateResult.invalid }
  else
    let currentStatus := classifyStatus phVal tdsVal tempVal turbVal
    let entry : Entry :=
      { ts := now, time := timeStr, pH := phVal, tds := tdsVal, temp := tempVal,
        turb := turbVal, status := currentStatus,
        lat := if latVal.isNaN then none else some latVal,
        lng := if lngVal.isNaN then none else some lngVal }
    let pr := if fbOk then pinStep dist freshPinId entry pins else (pins, none)
    let pinOps : List DownstreamOp :=
      match pr.2 with
      | some (PinOp.patch pid e) => [DownstreamOp.pinPatch deviceId pid e]
      | some (PinOp.post e) => [DownstreamOp.pinPost deviceId e]
      | none => []
    let ar := alertStep { lastAlertTime := st.lastAlertTime } currentStatus alertNow sendOk
    { state := { history := appendHistory st.history entry,
                 lastAlertTime := ar.1.lastAlertTime },
      pins := pr.1,
      sent := broadcast clients (Msg.reading entry),
      ops := [DownstreamOp.patchLatest deviceId entry,
              DownstreamOp.postHistory deviceId entry] ++ pinOps ++
             (if ar.2 then [DownstreamOp.ntfy entry] else []),
      result := UpdateResult.ok entry }

/-- The server-side reset password. -/
def RESET_PASSWORD : String := "LDCHEMICAL"

/-- Outcome of the /reset handler. -/
inductive ResetResult where
  | unauthorized : ResetResult
  | success : ResetResult
  | failure : ResetResult
deriving DecidableEq

/-- Everything the /reset handler produces. -/
structure ResetOutcome where
  state : ServerState
  sent : List (ℕ × Msg)
  ops : List DownstreamOp
  result : ResetResult
deriving DecidableEq

/-- The /reset handler: reject a wrong password before any side effect;
otherwise request the Firebase deletion, and only when it succeeds clear the
history array and broadcast the reset message.  lastAlertTime is not
touched. -/
def resetStep (st : ServerState) (clients : List Client) (pass : Option String)
    (devId : Option String) (deleteOk : Bool) : ResetOutcome :=
  let deviceId := devId.getD "device1"
  if pass ≠ some RESET_PASSWORD then
    { state := st, sent := [], ops := [], result := ResetResult.unauthorized }
  else if deleteOk then
    { state := { history := [], lastAlertTime := st.lastAlertTime },
      sent := broadcast clients Msg.reset,
      ops := [DownstreamOp.fbDelete deviceId],
      result := ResetResult.success }
  else
    { state := st, sent := [], ops := [DownstreamOp.fbDelete deviceId],
      result := ResetResult.failure }

/-- Degrees to radians, as in the distanceMeters helper. -/
noncomputable def toRad (x : ℝ) : ℝ := x * Real.pi / 180

/-- Math.atan2 restricted to real arguments, with the standard convention. -/
noncomputable def atan2 (y x : ℝ) : ℝ :=
  if 0 < x then Real.arctan (y / x)
  else if x < 0 ∧ 0 ≤ y then Real.arctan (y / x) + Real.pi
  else if x < 0 ∧ y < 0 then Real.arctan (y / x) - Real.pi
  else if x = 0 ∧ 0 < y then Real.pi / 2
  else if x = 0 ∧ y < 0 then -(Real.pi / 2)
  else 0

/-- The haversine great-circle distance of the source, Earth radius
6,371,000 m, over the reals (the source computes it in floating point). -/
noncomputable def distanceMeters (lat1 lon1 lat2 lon2 : ℝ) : ℝ :=
  let R : ℝ := 6371000
  let dLat := toRad (lat2 - lat1)
  let dLon := toRad (lon2 - lon1)
  let a := Real.sin (dLat / 2) * Real.sin (dLat / 2) +
    Real.cos (toRad lat1) * Real.cos (toRad lat2) *
      (Real.sin (dLon / 2) * Real.sin (dLon / 2))
  let c := 2 * atan2 (Real.sqrt a) (Real.sqrt (1 - a))
  R * c

/-- Merge of two scan results, keeping the left one on ties; auxiliary for
reasoning about the nearest-pin fold. -/
def combineNearest {α : Type} [LinearOrder α] :
    Option (String × α) → Option (String × α) → Option (String × α)
  | none, r => r
  | some b, none => some b
  | some b, some r => if r.2 < b.2 then some r else some b

/-- A concrete sample entry, used to instantiate theorems with hypotheses. -/
def sampleEntry : Entry :=
  { ts := 0, time := "t", pH := JSNum.fin 7, tds := JSNum.fin 100,
    temp := JSNum.fin 20, turb := JSNum.fin 1, status := Status.SAFE,
    lat := none, lng := none }

/-- A concrete distance function (identically zero), used to instantiate the
distance-parametrised scan on concrete inputs. -/
def distZero : JSNum → JSNum → JSNum → JSNum → ℚ := fun _ _ _ _ => 0

/-- A concrete geolocated entry sitting on the equator: latitude 0 is a
well-defined coordinate but a falsy JavaScript number. -/
def pinZeroLat : Entry :=
  { ts := 0, time := "t", pH := JSNum.fin 7, tds := JSNum.fin 100,
    temp := JSNum.fin 20, turb := JSNum.fin 1, status := Status.SAFE,
    lat := some (JSNum.fin 0), lng := some (JSNum.fin 10) }

/-- A concrete geolocated entry with truthy coordinates. -/
def pinOne : Entry :=
  { ts := 0, time := "t", pH := JSNum.fin 7, tds := JSNum.fin 100,
    temp := JSNum.fin 20, turb := JSNum.fin 1, status := Status.SAFE,
    lat := some (JSNum.fin 1), lng := some (JSNum.fin 1) }

/-- A concrete request whose pH parses to positive Infinity (parseFloat of
the string Infinity) and whose other mandatory fields are ordinary numbers. -/
def reqInf : UpdateRequest :=
  { id := none, pH := some JSNum.posInf, tds := some (JSNum.fin 100),
    temp := some (JSNum.fin 20), turb := some (JSNum.fin 1),
    lat := none, lng := none }

/-- A concrete request missing its tds parameter. -/
def reqMissingTds : UpdateRequest :=
  { id := none, pH := some (JSNum.fin 7), tds := none,
    temp := some (JSNum.fin 20), turb := some (JSNum.fin 1),
    lat := none, lng := none }

/-- A concrete valid request with all four mandatory fields numeric. -/
def reqValid : UpdateRequest :=
  { id := none, pH := some (JSNum.fin 7), tds := some (JSNum.fin 100),
    temp := some (JSNum.fin 20), turb := some (JSNum.fin 1),
    lat := none, lng := none }

/-- The initial server state. -/
def state0 : ServerState := { history := [], lastAlertTime := 0 }

/-! ## Helper lemmas -/

/-- Patching a pin in place does not change the number of pins. -/
theorem patchPin_length (pins : List (String × Entry)) (pid : String) (e : Entry) :
    (patchPin pins pid e).length = pins.length := by
  simp [patchPin]

/-- Appending to a history of at most 50 entries keeps it at most 50. -/
theorem appendHistory_length_le (h : List Entry) (e : Entry)
    (hh : h.length ≤ 50) : (appendHistory h e).length ≤ 50 := by
  simp only [appendHistory]
  split
  · simp only [List.length_tail, List.length_append, List.length_cons,
      List.length_nil]
    omega
  · rename_i hc
    simp only [not_lt, List.length_append, List.length_cons, List.length_nil] at hc ⊢
    omega

/-- Running the fold from any history of at most 50 entries drops everything
but the last 50 of the concatenation. -/
theorem foldl_appendHistory (es : List Entry) :
    ∀ h : List Entry, h.length ≤ 50 →
      es.foldl appendHistory h = (h ++ es).drop ((h ++ es).length - 50) := by
  induction es with
  | nil =>
      intro h hh
      simp only [List.foldl_nil, List.append_nil]
      rw [Nat.sub_eq_zero_of_le hh, List.drop_zero]
  | cons e es ih =>
      intro h hh
      rw [List.foldl_cons, ih _ (appendHistory_length_le h e hh)]
      by_cases hlen : h.length + 1 ≤ 50
      · have h1 : appendHistory h e = h ++ [e] := by
          simp only [appendHistory]
          rw [if_neg]
          simp only [List.length_append, List.length_cons, List.length_nil]
          omega
        rw [h1, List.append_assoc]
        simp
      · have hlen50 : h.length = 50 := by omega
        have hc : 50 < (h ++ [e]).length := by
          simp only [List.length_append, List.length_cons, List.length_nil]
          omega
        have h1 : appendHistory h e = (h ++ [e]).drop 1 := by
          simp only [appendHistory]
          rw [if_pos hc, List.drop_one]
        have hle : 1 ≤ (h ++ [e]).length := by omega
        have h2 : appendHistory h e ++ es = (h ++ e :: es).drop 1 := by
          rw [h1, ← List.drop_append_of_le_length hle, List.append_assoc]
          simp
        rw [h2, List.drop_drop, List.length_drop]
        congr 1
        simp only [List.length_append, List.length_cons]
        omega

/-! ## Claim theorems -/

/-- Claim C4: the history cache is a bounded FIFO of capacity 50: appending to a
cache of at most 50 entries keeps it at most 50; ingesting any sequence of
readings into an empty cache leaves exactly the suffix of the last 50 in
their original relative order (so its size is the minimum of the input length
and 50); in particular ingesting 51 readings leaves exactly the last 50, the
oldest evicted. -/
theorem history_bounded_fifo :
    (∀ (h : List Entry) (e : Entry), h.length ≤ 50 →
        (appendHistory h e).length ≤ 50)
    ∧ (∀ es : List Entry, runHistory es = es.drop (es.length - 50)
        ∧ (runHistory es).length = min es.length 50)
    ∧ (∀ es : List Entry, es.length = 51 → runHistory es = es.drop 1) := by
  have hrun : ∀ es : List Entry, runHistory es = es.drop (es.length - 50) := by
    intro es
    have := foldl_appendHistory es [] (by simp)
    simpa [runHistory] using this
  refine ⟨appendHistory_length_le, ?_, ?_⟩
  · intro es
    refine ⟨hrun es, ?_⟩
    rw [hrun es, List.length_drop]
    omega
  · intro es h51
    rw [hrun es, h51]

/-- Claim C4 witness: concrete instances of the bounded-FIFO theorem, at a history
of 50 entries and at an input of 51 entries. -/
theorem history_bounded_fifo_witness :
    (appendHistory (List.replicate 50 sampleEntry) sampleEntry).length ≤ 50
    ∧ runHistory (List.replicate 51 sampleEntry)
        = (List.replicate 51 sampleEntry).drop 1 :=
  ⟨history_bounded_fifo.1 (List.replicate 50 sampleEntry) sampleEntry (by simp),
   history_bounded_fifo.2.2 (List.replicate 51 sampleEntry) (by simp)⟩

/-- Claim C5: a reading whose four mandatory values are finite numbers is stored as
UNSAFE exactly when pH < 6.5 or pH > 8.5 or tds > 500 or temp > 35 or
turb > 10, and SAFE otherwise; the disjunction is order-independent, and the
boundary values 6.5, 8.5, 500, 35, 10 yield SAFE. -/
theorem classifyStatus_spec :
    (∀ ph tds temp turb : ℚ,
      (classifyStatus (JSNum.fin ph) (JSNum.fin tds) (JSNum.fin temp)
          (JSNum.fin turb) = Status.UNSAFE ↔
        (ph < 6.5 ∨ 8.5 < ph ∨ 500 < tds ∨ 35 < temp ∨ 10 < turb))
      ∧ (classifyStatus (JSNum.fin ph) (JSNum.fin tds) (JSNum.fin temp)
          (JSNum.fin turb) = Status.SAFE ↔
        ¬(ph < 6.5 ∨ 8.5 < ph ∨ 500 < tds ∨ 35 < temp ∨ 10 < turb))
      ∧ ((ph < 6.5 ∨ 8.5 < ph ∨ 500 < tds ∨ 35 < temp ∨ 10 < turb) ↔
        (10 < turb ∨ 35 < temp ∨ 500 < tds ∨ 8.5 < ph ∨ ph < 6.5)))
    ∧ classifyStatus (JSNum.fin (mkRat 13 2)) (JSNum.fin 500) (JSNum.fin 35)
        (JSNum.fin 10) = Status.SAFE
    ∧ classifyStatus (JSNum.fin (mkRat 17 2)) (JSNum.fin 500) (JSNum.fin 35)
        (JSNum.fin 10) = Status.SAFE := by
  have h65 : mkRat 13 2 = (6.5 : ℚ) := by norm_num [Rat.mkRat_eq_div]
  have h85 : mkRat 17 2 = (8.5 : ℚ) := by norm_num [Rat.mkRat_eq_div]
  refine ⟨?_, by decide, by decide⟩
  intro ph tds temp turb
  refine ⟨?_, ?_, by tauto⟩
  · simp only [classifyStatus, JSNum.jsLt, JSNum.jsGt, h65, h85,
      Bool.or_eq_true, decide_eq_true_eq]
    split
    · rename_i hc
      exact iff_of_true rfl (by tauto)
    · rename_i hc
      exact iff_of_false (by decide) (by tauto)
  · simp only [classifyStatus, JSNum.jsLt, JSNum.jsGt, h65, h85,
      Bool.or_eq_true, decide_eq_true_eq]
    split
    · rename_i hc
      exact iff_of_false (by decide) (by tauto)
    · rename_i hc
      exact iff_of_true rfl (by tauto)

/-- Claim C3 counterexample: when the downstream send fails, lastAlertTime is not
set to now (the assignment sits inside the try block), so a second UNSAFE
reading 10 seconds later makes a second alert attempt inside the same
120-second cooldown window — refuting both "lastAlertAt is set to now whether
or not the downstream send succeeds" and "at most one alert attempt per
cooldown window". -/
theorem alertStep_failed_send_cex :
    alertStep { lastAlertTime := 0 } Status.UNSAFE 1000000 false
      = ({ lastAlertTime := 0 }, true)
    ∧ alertStep { lastAlertTime := 0 } Status.UNSAFE 1010000 false
      = ({ lastAlertTime := 0 }, true) := by
  decide

/-- Claim C3 amended: an alert attempt is made exactly when the reading is UNSAFE
and the cooldown has elapsed since lastAlertTime; on a successful send
lastAlertTime is set to now and no further attempt is made within the
following cooldown window; on a failed send the throttle state is unchanged
(so the next UNSAFE reading may attempt again within the window). -/
theorem alertStep_spec :
    (∀ (st : AlertState) (status : Status) (now : ℤ) (ok : Bool),
      (alertStep st status now ok).2 = true ↔
        (status = Status.UNSAFE ∧ ALERT_COOLDOWN < now - st.lastAlertTime))
    ∧ (∀ (st : AlertState) (now : ℤ), ALERT_COOLDOWN < now - st.lastAlertTime →
        (alertStep st Status.UNSAFE now true).1 = { lastAlertTime := now })
    ∧ (∀ (st : AlertState) (status : Status) (now : ℤ),
        (alertStep st status now false).1 = st)
    ∧ (∀ (st : AlertState) (now now2 : ℤ),
        ALERT_COOLDOWN < now - st.lastAlertTime → now2 - now ≤ ALERT_COOLDOWN →
        (alertStep (alertStep st Status.UNSAFE now true).1
          Status.UNSAFE now2 true).2 = false) := by
  refine ⟨?_, ?_, ?_, ?_⟩
  · intro st status now ok
    cases status
    · simp [alertStep]
    · by_cases hgap : ALERT_COOLDOWN < now - st.lastAlertTime
      · simp [alertStep, hgap]
      · simp [alertStep, hgap]
  · intro st now hgap
    simp [alertStep, hgap]
  · intro st status now
    cases status
    · simp [alertStep]
    · by_cases hgap : ALERT_COOLDOWN < now - st.lastAlertTime
      · simp [alertStep, hgap]
      · simp [alertStep, hgap]
  · intro st now now2 hgap hwin
    simp only [alertStep, if_pos hgap, reduceIte]
    rw [if_neg]
    omega

/-- Claim C3 witness: concrete instance of the amended alert theorem — a successful
send at time 1000000 sets lastAlertTime, and a second UNSAFE reading 10
seconds later is suppressed. -/
theorem alertStep_spec_witness :
    (alertStep { lastAlertTime := 0 } Status.UNSAFE 1000000 true).1
      = { lastAlertTime := 1000000 }
    ∧ (alertStep (alertStep { lastAlertTime := 0 } Status.UNSAFE 1000000 true).1
        Status.UNSAFE 1010000 true).2 = false :=
  ⟨alertStep_spec.2.1 { lastAlertTime := 0 } 1000000 (by decide),
   alertStep_spec.2.2.2 { lastAlertTime := 0 } 1000000 1010000 (by decide)
     (by decide)⟩

/-- Claim C7 counterexample: a successful reset leaves the alert-throttle state
untouched (only the history array is cleared), refuting the claim that the
local AlertState is cleared on reset. -/
theorem resetStep_keeps_alertState :
    (resetStep { history := [sampleEntry], lastAlertTime := 999 } []
        (some "LDCHEMICAL") none true).result = ResetResult.success
    ∧ (resetStep { history := [sampleEntry], lastAlertTime := 999 } []
        (some "LDCHEMICAL") none true).state.lastAlertTime = 999 := by
  decide

/-- Claim C7 amended: with the correct password, the reset first requests the
durable deletion; only when it succeeds is the local history cleared (the
alert timestamp is left unchanged; pins live only in the durable store, which
the deletion removes) and the reset message broadcast, after which the
snapshot query returns empty; when the deletion fails the local state is
unchanged and nothing is broadcast. -/
theorem resetStep_spec (st : ServerState) (clients : List Client)
    (devId : Option String) :
    resetStep st clients (some RESET_PASSWORD) devId true =
      { state := { history := [], lastAlertTime := st.lastAlertTime },
        sent := broadcast clients Msg.reset,
        ops := [DownstreamOp.fbDelete (devId.getD "device1")],
        result := ResetResult.success }
    ∧ resetStep st clients (some RESET_PASSWORD) devId false =
      { state := st, sent := [],
        ops := [DownstreamOp.fbDelete (devId.getD "device1")],
        result := ResetResult.failure }
    ∧ snapshot (resetStep st clients (some RESET_PASSWORD) devId
        true).state.history = none := by
  refine ⟨?_, ?_, ?_⟩ <;> simp [resetStep, snapshot]

/-- Claim C9: a reset request whose credential differs from the shared secret is
rejected as unauthorized with no side effects: the state is unchanged, no
message is broadcast, and no downstream deletion is requested. -/
theorem resetStep_unauthorized (st : ServerState) (clients : List Client)
    (pass : Option String) (devId : Option String) (deleteOk : Bool)
    (hp : pass ≠ some RESET_PASSWORD) :
    resetStep st clients pass devId deleteOk =
      { state := st, sent := [], ops := [],
        result := ResetResult.unauthorized } := by
  simp [resetStep, hp]

/-- Claim C9 witness: concrete instance of the unauthorized-reset theorem at a
wrong password. -/
theorem resetStep_unauthorized_witness :
    resetStep state0 [] (some "WRONG") none true =
      { state := state0, sent := [], ops := [],
        result := ResetResult.unauthorized } :=
  resetStep_unauthorized state0 [] (some "WRONG") none true (by decide)

/-- Claim C6 counterexample: a request whose pH parses to Infinity carries a
non-finite mandatory value, yet the isNaN guard accepts it: the request is not
rejected and the reading enters the history — refuting "fails if and only if
some mandatory value is absent or not a finite number". -/
theorem updateStep_accepts_infinity :
    (parseParam reqInf.pH).isFinite = false
    ∧ (updateStep distZero state0 [] [] reqInf 0 "t" "p1" true 0 true).result
        ≠ UpdateResult.invalid
    ∧ (updateStep distZero state0 [] [] reqInf 0 "t" "p1" true 0
        true).state.history.length = 1 := by
  decide

/-- Claim C6 amended: ingest fails exactly when some mandatory value parses to NaN
(which happens exactly when the parameter is absent or its string does not
parse to any number, Infinity not included), and on failure no state is
touched: history, pins, broadcasts and downstream calls are all unchanged or
empty. -/
theorem updateStep_invalid_spec {α : Type} [LinearOrderedField α]
    (dist : JSNum → JSNum → JSNum → JSNum → α) (st : ServerState)
    (clients : List Client) (pins : List (String × Entry)) (req : UpdateRequest)
    (now : ℤ) (timeStr freshPinId : String) (fbOk : Bool) (alertNow : ℤ)
    (sendOk : Bool) :
    ((updateStep dist st clients pins req now timeStr freshPinId fbOk alertNow
        sendOk).result = UpdateResult.invalid ↔
      ((parseParam req.pH).isNaN || (parseParam req.tds).isNaN ||
        (parseParam req.temp).isNaN || (parseParam req.turb).isNaN) = true)
    ∧ (((parseParam req.pH).isNaN || (parseParam req.tds).isNaN ||
        (parseParam req.temp).isNaN || (parseParam req.turb).isNaN) = true →
      updateStep dist st clients pins req now timeStr freshPinId fbOk alertNow
          sendOk =
        { state := st, pins := pins, sent := [], ops := [],
          result := UpdateResult.invalid })
    ∧ (∀ v : Option JSNum, (parseParam v).isNaN = true ↔
        (v = none ∨ v = some JSNum.nan)) := by
  refine ⟨?_, ?_, ?_⟩
  · by_cases hv : ((parseParam req.pH).isNaN || (parseParam req.tds).isNaN ||
        (parseParam req.temp).isNaN || (parseParam req.turb).isNaN) = true
    · simp [updateStep, hv]
    · simp [updateStep, hv]
  · intro hv
    simp [updateStep, hv]
  · intro v
    cases v with
    | none => simp [parseParam, JSNum.isNaN]
    | some w => cases w <;> simp [parseParam, JSNum.isNaN]

/-- Claim C6 witness: concrete instance of the no-mutation-on-failure theorem at a
request missing its tds parameter. -/
theorem updateStep_invalid_spec_witness :
    updateStep distZero state0 [] [] reqMissingTds 0 "t" "p1" true 0 true =
      { state := state0, pins := [], sent := [], ops := [],
        result := UpdateResult.invalid } :=
  (updateStep_invalid_spec distZero state0 [] [] reqMissingTds 0 "t" "p1" true
    0 true).2.1 (by decide)

/-- Claim C8: a connecting subscriber is immediately sent the full ordered history
dump; a broadcast delivers the message exactly to the clients whose channel
is open, in order, skipping closed clients silently, and skipping the head
client never affects delivery to the rest; every valid ingest pushes its
reading to exactly the open clients. -/
theorem broadcast_push_spec {α : Type} [LinearOrderedField α]
    (dist : JSNum → JSNum → JSNum → JSNum → α) :
    (∀ h : List Entry, onConnection h = Msg.history h)
    ∧ (∀ (clients : List Client) (m : Msg),
        broadcast clients m =
          (clients.filter (fun c => c.isOpen)).map (fun c => (c.cid, m)))
    ∧ (∀ (c : Client) (clients : List Client) (m : Msg),
        broadcast (c :: clients) m =
          (if c.isOpen then [(c.cid, m)] else []) ++ broadcast clients m)
    ∧ (∀ (st : ServerState) (clients : List Client)
        (pins : List (String × Entry)) (req : UpdateRequest) (now : ℤ)
        (timeStr freshPinId : String) (fbOk : Bool) (alertNow : ℤ)
        (sendOk : Bool),
        ((parseParam req.pH).isNaN || (parseParam req.tds).isNaN ||
          (parseParam req.temp).isNaN || (parseParam req.turb).isNaN) = false →
        ∃ e : Entry,
          (updateStep dist st clients pins req now timeStr freshPinId fbOk
            alertNow sendOk).result = UpdateResult.ok e ∧
          (updateStep dist st clients pins req now timeStr freshPinId fbOk
            alertNow sendOk).sent = broadcast clients (Msg.reading e)) := by
  refine ⟨fun h => rfl, ?_, ?_, ?_⟩
  · intro clients m
    induction clients with
    | nil => rfl
    | cons c cs ih =>
        simp only [broadcast] at ih
        cases hc : c.isOpen <;>
          simp [broadcast, List.filterMap_cons, List.filter_cons, hc, ih]
  · intro c clients m
    cases hc : c.isOpen <;> simp [broadcast, List.filterMap_cons, hc]
  · intro st clients pins req now timeStr freshPinId fbOk alertNow sendOk hv
    refine ⟨{ ts := now, time := timeStr, pH := parseParam req.pH,
              tds := parseParam req.tds, temp := parseParam req.temp,
              turb := parseParam req.turb,
              status := classifyStatus (parseParam req.pH) (parseParam req.tds)
                (parseParam req.temp) (parseParam req.turb),
              lat := if (parseParam req.lat).isNaN then none
                     else some (parseParam req.lat),
              lng := if (parseParam req.lng).isNaN then none
                     else some (parseParam req.lng) }, ?_, ?_⟩ <;>
      simp [updateStep, hv]

/-- Claim C8 witness: concrete instance of the push theorem with one open and one
closed client. -/
theorem broadcast_push_spec_witness :
    ∃ e : Entry,
      (updateStep distZero state0 [⟨1, true⟩, ⟨2, false⟩] [] reqValid 0 "t"
        "p1" true 0 true).result = UpdateResult.ok e ∧
      (updateStep distZero state0 [⟨1, true⟩, ⟨2, false⟩] [] reqValid 0 "t"
        "p1" true 0 true).sent
        = broadcast [⟨1, true⟩, ⟨2, false⟩] (Msg.reading e) :=
  (broadcast_push_spec distZero).2.2.2 state0 [⟨1, true⟩, ⟨2, false⟩] []
    reqValid 0 "t" "p1" true 0 true (by decide)

/-- Claim C10: the device id has no effect on local state: two ingests differing
only in the id produce the same history, pins, broadcast messages,
alert-throttle state and result (only the downstream URLs differ), and a
successful reset with any device id clears the single shared history. -/
theorem scope_independence {α : Type} [LinearOrderedField α]
    (dist : JSNum → JSNum → JSNum → JSNum → α) (st : ServerState)
    (clients : List Client) (pins : List (String × Entry))
    (ph tds temp turb lat lng : Option JSNum) (i1 i2 : Option String)
    (now : ℤ) (timeStr freshPinId : String) (fbOk : Bool) (alertNow : ℤ)
    (sendOk : Bool) (deleteOk : Bool) :
    ((updateStep dist st clients pins
        { id := i1, pH := ph, tds := tds, temp := temp, turb := turb,
          lat := lat, lng := lng } now timeStr freshPinId fbOk alertNow
        sendOk).state
      = (updateStep dist st clients pins
        { id := i2, pH := ph, tds := tds, temp := temp, turb := turb,
          lat := lat, lng := lng } now timeStr freshPinId fbOk alertNow
        sendOk).state
    ∧ (updateStep dist st clients pins
        { id := i1, pH := ph, tds := tds, temp := temp, turb := turb,
          lat := lat, lng := lng } now timeStr freshPinId fbOk alertNow
        sendOk).pins
      = (updateStep dist st clients pins
        { id := i2, pH := ph, tds := tds, temp := temp, turb := turb,
          lat := lat, lng := lng } now timeStr freshPinId fbOk alertNow
        sendOk).pins
    ∧ (updateStep dist st clients pins
        { id := i1, pH := ph, tds := tds, temp := temp, turb := turb,
          lat := lat, lng := lng } now timeStr freshPinId fbOk alertNow
        sendOk).sent
      = (updateStep dist st clients pins
        { id := i2, pH := ph, tds := tds, temp := temp, turb := turb,
          lat := lat, lng := lng } now timeStr freshPinId fbOk alertNow
        sendOk).sent
    ∧ (updateStep dist st clients pins
        { id := i1, pH := ph, tds := tds, temp := temp, turb := turb,
          lat := lat, lng := lng } now timeStr freshPinId fbOk alertNow
        sendOk).result
      = (updateStep dist st clients pins
        { id := i2, pH := ph, tds := tds, temp := temp, turb := turb,
          lat := lat, lng := lng } now timeStr freshPinId fbOk alertNow
        sendOk).result)
    ∧ ((resetStep st clients (some RESET_PASSWORD) i1 deleteOk).state
        = (resetStep st clients (some RESET_PASSWORD) i2 deleteOk).state
      ∧ (resetStep st clients (some RESET_PASSWORD) i1 deleteOk).sent
        = (resetStep st clients (some RESET_PASSWORD) i2 deleteOk).sent
      ∧ (resetStep st clients (some RESET_PASSWORD) i1 deleteOk).result
        = (resetStep st clients (some RESET_PASSWORD) i2 deleteOk).result)
    ∧ (resetStep st clients (some RESET_PASSWORD) i1 true).state.history
        = [] := by
  refine ⟨?_, ?_, ?_⟩
  · by_cases hv : ((parseParam ph).isNaN || (parseParam tds).isNaN ||
        (parseParam temp).isNaN || (parseParam turb).isNaN) = true
    · simp [updateStep, hv]
    · simp [updateStep, hv]
  · cases deleteOk <;> simp [resetStep]
  · simp [resetStep]

/-! ## Nearest-pin scan: helper lemmas -/

/-- Merging with an empty right operand is the identity. -/
theorem combineNearest_none_right {α : Type} [LinearOrder α]
    (acc : Option (String × α)) : combineNearest acc none = acc := by
  cases acc <;> rfl

/-- Unfolding of the merge on two present results. -/
theorem combineNearest_some_some {α : Type} [LinearOrder α]
    (b r : String × α) :
    combineNearest (some b) (some r) = if r.2 < b.2 then some r else some b :=
  rfl

/-- One scan iteration from an arbitrary accumulator is the merge of the
accumulator with the iteration started from nothing. -/
theorem scanStep_eq_combine {α : Type} [LinearOrder α]
    (dist : JSNum → JSNum → JSNum → JSNum → α) (elat elng : JSNum)
    (acc : Option (String × α)) (p : String × Entry) :
    scanStep dist elat elng acc p
      = combineNearest acc (scanStep dist elat elng none p) := by
  by_cases hp : (jsTruthy p.2.lat && jsTruthy p.2.lng) = true
  · simp only [scanStep, if_pos hp]
    cases acc with
    | none => rfl
    | some b => rfl
  · simp only [scanStep, if_neg hp]
    exact (combineNearest_none_right acc).symm

/-- The merge is associative (with left preference on ties). -/
theorem combineNearest_assoc {α : Type} [LinearOrder α]
    (a b c : Option (String × α)) :
    combineNearest (combineNearest a b) c
      = combineNearest a (combineNearest b c) := by
  cases a with
  | none => rfl
  | some av =>
    cases b with
    | none => rfl
    | some bv =>
      cases c with
      | none => rw [combineNearest_none_right, combineNearest_none_right]
      | some cv =>
        by_cases hba : bv.2 < av.2
        · by_cases hcb : cv.2 < bv.2
          · have hca : cv.2 < av.2 := lt_trans hcb hba
            simp [combineNearest, hba, hcb, hca]
          · simp [combineNearest, hba, hcb]
        · by_cases hcb : cv.2 < bv.2
          · simp [combineNearest, hba, hcb]
          · have hca : ¬cv.2 < av.2 :=
              fun h => hcb (lt_of_lt_of_le h (not_lt.mp hba))
            simp [combineNearest, hba, hcb, hca]

/-- The scan fold from an arbitrary accumulator is the merge of the
accumulator with the scan from nothing. -/
theorem foldl_scanStep_eq {α : Type} [LinearOrder α]
    (dist : JSNum → JSNum → JSNum → JSNum → α) (elat elng : JSNum) :
    ∀ (pins : List (String × Entry)) (acc : Option (String × α)),
      pins.foldl (scanStep dist elat elng) acc
        = combineNearest acc (nearestPin dist elat elng pins) := by
  intro pins
  induction pins with
  | nil =>
      intro acc
      simp only [List.foldl_nil, nearestPin]
      exact (combineNearest_none_right acc).symm
  | cons p ps ih =>
      intro acc
      have hnp : nearestPin dist elat elng (p :: ps)
          = combineNearest (scanStep dist elat elng none p)
              (nearestPin dist elat elng ps) := by
        simp only [nearestPin, List.foldl_cons]
        exact ih (scanStep dist elat elng none p)
      rw [List.foldl_cons, ih (scanStep dist elat elng acc p), hnp,
        scanStep_eq_combine, combineNearest_assoc]

/-- At identical coordinates the haversine distance of the source is exactly
zero (so a pin at the position of the reading itself is within every nonnegative
threshold). -/
theorem distanceMeters_self (lat lon : ℝ) :
    distanceMeters lat lon lat lon = 0 := by
  simp [distanceMeters, toRad, atan2, Real.arctan_zero, zero_lt_one]

/-! ## Claim theorems: pins -/

/-- Claim C2 counterexample: a pin whose latitude is the number 0 has both
coordinates present, yet the scan skips it (0 is falsy in JavaScript), so a
reading at those exact coordinates reports no nearest pin and the multi-pin
block creates a second pin instead of updating the existing one at distance
0 — refuting "a Pin is skipped from the scan only when it lacks
coordinates". -/
theorem nearestPin_skips_zero_coordinate :
    pinZeroLat.lat = some (JSNum.fin 0) ∧ pinZeroLat.lng = some (JSNum.fin 10)
    ∧ nearestPin distZero (JSNum.fin 0) (JSNum.fin 10) [("a", pinZeroLat)]
        = none
    ∧ (pinStep distZero "b" pinZeroLat [("a", pinZeroLat)]).1.length = 2 := by
  decide

/-- Claim C2 amended: the scan returns nothing exactly when every pin is skipped,
where a pin is skipped when its lat or lng is missing or falsy (0 or NaN) —
not only when it lacks coordinates; a returned pin at distance d realises the
minimum distance over all scanned pins and is the first scanned pin attaining
it (every scanned pin strictly before it has distance strictly greater
than d).  This holds for every distance function over every linear order, in
particular for the haversine distance of the source. -/
theorem nearestPin_min_first {α : Type} [LinearOrder α]
    (dist : JSNum → JSNum → JSNum → JSNum → α) (elat elng : JSNum)
    (pins : List (String × Entry)) :
    (nearestPin dist elat elng pins = none ↔ scannedPins pins = [])
    ∧ (∀ (pid : String) (d : α),
        nearestPin dist elat elng pins = some (pid, d) →
          (∀ q ∈ scannedPins pins, d ≤ pinDist dist elat elng q)
          ∧ ∃ l1 p l2, scannedPins pins = l1 ++ p :: l2 ∧ p.1 = pid
              ∧ pinDist dist elat elng p = d
              ∧ ∀ q ∈ l1, d < pinDist dist elat elng q) := by
  induction pins with
  | nil =>
      constructor
      · simp [nearestPin, scannedPins]
      · intro pid d h
        simp [nearestPin] at h
  | cons p ps ih =>
      have hstep : nearestPin dist elat elng (p :: ps)
          = combineNearest (scanStep dist elat elng none p)
              (nearestPin dist elat elng ps) := by
        simp only [nearestPin, List.foldl_cons]
        exact foldl_scanStep_eq dist elat elng ps _
      by_cases hp : (jsTruthy p.2.lat && jsTruthy p.2.lng) = true
      · have hscan : scannedPins (p :: ps) = p :: scannedPins ps := by
          simp [scannedPins, List.filter_cons, hp]
        have hsp : scanStep dist elat elng none p
            = some (p.1, pinDist dist elat elng p) := by
          simp [scanStep, hp]
        rw [hstep, hsp, hscan]
        cases hnp : nearestPin dist elat elng ps with
        | none =>
            have hempty : scannedPins ps = [] := (ih.1).mp hnp
            rw [combineNearest_none_right]
            constructor
            · simp
            · intro pid d h
              injection h with h1
              injection h1 with h2 h3
              subst h2
              subst h3
              constructor
              · intro q hq
                rw [hempty] at hq
                rcases List.mem_cons.mp hq with hre | hrm
                · rw [hre]
                · exact absurd hrm (List.not_mem_nil q)
              · exact ⟨[], p, scannedPins ps, by simp, rfl, rfl, by simp⟩
        | some qd =>
            obtain ⟨q, dq⟩ := qd
            obtain ⟨hmin, l1, pq, l2, hsplit, hq1, hqd, hl1⟩ := ih.2 q dq hnp
            rw [combineNearest_some_some]
            by_cases hlt : dq < pinDist dist elat elng p
            · rw [if_pos hlt]
              constructor
              · simp
              · intro pid d h
                injection h with h1
                injection h1 with h2 h3
                subst h2
                subst h3
                constructor
                · intro r hr
                  rcases List.mem_cons.mp hr with hre | hrm
                  · rw [hre]
                    exact le_of_lt hlt
                  · exact hmin r hrm
                · refine ⟨p :: l1, pq, l2, by rw [hsplit]; rfl, hq1, hqd, ?_⟩
                  intro r hr
                  rcases List.mem_cons.mp hr with hre | hrm
                  · rw [hre]
                    exact hlt
                  · exact hl1 r hrm
            · rw [if_neg hlt]
              constructor
              · simp
              · intro pid d h
                injection h with h1
                injection h1 with h2 h3
                subst h2
                subst h3
                constructor
                · intro r hr
                  rcases List.mem_cons.mp hr with hre | hrm
                  · rw [hre]
                  · exact le_trans (not_lt.mp hlt) (hmin r hrm)
                · exact ⟨[], p, scannedPins ps, by simp, rfl, rfl, by simp⟩
      · have hscan : scannedPins (p :: ps) = scannedPins ps := by
          simp [scannedPins, List.filter_cons, hp]
        have hsp : scanStep dist elat elng none p = none := by
          simp only [scanStep, if_neg hp]
        rw [hstep, hsp, hscan]
        exact ih

/-- Claim C2 witness: concrete instance of the amended scan theorem at one truthy
pin and the zero distance function. -/
theorem nearestPin_min_first_witness :
    (∀ q ∈ scannedPins [("a", pinOne)],
        (0 : ℚ) ≤ pinDist distZero (JSNum.fin 1) (JSNum.fin 1) q)
    ∧ ∃ l1 p l2, scannedPins [("a", pinOne)] = l1 ++ p :: l2 ∧ p.1 = "a"
        ∧ pinDist distZero (JSNum.fin 1) (JSNum.fin 1) p = 0
        ∧ ∀ q ∈ l1, (0 : ℚ) < pinDist distZero (JSNum.fin 1) (JSNum.fin 1) q :=
  (nearestPin_min_first distZero (JSNum.fin 1) (JSNum.fin 1)
    [("a", pinOne)]).2 "a" 0 (by decide)

/-- Claim C1: for a geolocated reading, when the scan reports a nearest pin (with a
non-empty id) at distance at most 25 m, that pin is patched in place with the
reading and the pin count is unchanged; when the scan reports a nearest pin
farther than 25 m, or no pin at all, exactly one new pin holding the reading
is appended and the pin count increases by one. -/
theorem pinStep_decision {α : Type} [LinearOrderedField α]
    (dist : JSNum → JSNum → JSNum → JSNum → α) (freshPinId : String)
    (entry : Entry) (pins : List (String × Entry)) (elat elng : JSNum)
    (hlat : entry.lat = some elat) (hlng : entry.lng = some elng) :
    (∀ (pid : String) (d : α),
      nearestPin dist elat elng pins = some (pid, d) → pid ≠ "" → d ≤ 25 →
        pinStep dist freshPinId entry pins
          = (patchPin pins pid entry, some (PinOp.patch pid entry))
        ∧ (pinStep dist freshPinId entry pins).1.length = pins.length)
    ∧ (∀ (pid : String) (d : α),
      nearestPin dist elat elng pins = some (pid, d) → pid ≠ "" → 25 < d →
        pinStep dist freshPinId entry pins
          = (pins ++ [(freshPinId, entry)], some (PinOp.post entry))
        ∧ (pinStep dist freshPinId entry pins).1.length = pins.length + 1)
    ∧ (nearestPin dist elat elng pins = none →
        pinStep dist freshPinId entry pins
          = (pins ++ [(freshPinId, entry)], some (PinOp.post entry))
        ∧ (pinStep dist freshPinId entry pins).1.length = pins.length + 1) := by
  refine ⟨?_, ?_, ?_⟩
  · intro pid d hn hne hd
    have hps : pinStep dist freshPinId entry pins
        = (patchPin pins pid entry, some (PinOp.patch pid entry)) := by
      simp only [pinStep, hlat, hlng, hn]
      rw [if_pos ⟨hne, hd⟩]
    refine ⟨hps, ?_⟩
    rw [hps]
    exact patchPin_length pins pid entry
  · intro pid d hn hne hd
    have hps : pinStep dist freshPinId entry pins
        = (pins ++ [(freshPinId, entry)], some (PinOp.post entry)) := by
      simp only [pinStep, hlat, hlng, hn]
      rw [if_neg]
      intro hcontra
      exact absurd hd (not_lt.mpr hcontra.2)
    refine ⟨hps, ?_⟩
    rw [hps]
    simp
  · intro hn
    have hps : pinStep dist freshPinId entry pins
        = (pins ++ [(freshPinId, entry)], some (PinOp.post entry)) := by
      simp only [pinStep, hlat, hlng, hn]
    refine ⟨hps, ?_⟩
    rw [hps]
    simp

/-- Claim C1 witness: concrete instance of the pin-decision theorem — a reading at
the coordinates of the single existing (truthy) pin patches it and the count
stays 1. -/
theorem pinStep_decision_witness :
    pinStep distZero "p1" pinOne [("a", pinOne)]
        = (patchPin [("a", pinOne)] "a" pinOne, some (PinOp.patch "a" pinOne))
    ∧ (pinStep distZero "p1" pinOne [("a", pinOne)]).1.length
        = [("a", pinOne)].length :=
  (pinStep_decision distZero "p1" pinOne [("a", pinOne)] (JSNum.fin 1)
    (JSNum.fin 1) (by decide) (by decide)).1 "a" 0 (by decide) (by decide)
    (by decide)

end WaterSensor
